import Mathlib

/-!
Shallow embedding of the LSDyna_Convert repository (src/main_Convert.py,
src/config.py): an Abaqus `.inp` mesh parser (`parse_inp`) and an LS-DYNA
DUALCESE `.k` writer (`write_k`), together with the static tables of
`config.py`.

Python dictionaries are modelled as insertion-ordered association lists
with unique keys; Python exceptions (ValueError from `int()` / `float()` /
tuple unpacking, KeyError / IndexError from lookups) are modelled as
`Except String` in the parser and as a `(lines-written-so-far, error?)`
pair in the writer, which keeps the partial output that the real program
has already written to the file when it aborts.

Numeric tokens: Python `int()` is modelled over the decimal grammar
(optional surrounding whitespace, optional sign, a non-empty digit run);
Python `float()` over the decimal grammar with optional fraction and
exponent, read exactly into `Rat` (IEEE rounding and inf/nan literals play
no role in any claim considered here).

Python `str` methods (`strip`, `lower`, `upper`, `split`, `startswith`,
`index`, slicing) are modelled by structurally recursive functions on the
character list of the string, so that every definition evaluates inside
the kernel on concrete inputs; case mapping is ASCII, which covers the
whole keyword grammar of the source format.
-/

namespace LSDynaConvert

/-- Value of a digit run, most significant first. -/
def digitsToNat (cs : List Char) : Nat :=
  cs.foldl (fun a c => a * 10 + (c.toNat - '0'.toNat)) 0

/-- All characters are decimal digits. -/
def allDigits (cs : List Char) : Bool :=
  cs.all (·.isDigit)

/-- ASCII lower-casing of one character. -/
def lowerChar (c : Char) : Char :=
  if 'A' ≤ c ∧ c ≤ 'Z' then Char.ofNat (c.toNat + 32) else c

/-- ASCII upper-casing of one character. -/
def upperChar (c : Char) : Char :=
  if 'a' ≤ c ∧ c ≤ 'z' then Char.ofNat (c.toNat - 32) else c

/-- Python `str.strip()` on the character list. -/
def stripL (cs : List Char) : List Char :=
  ((cs.dropWhile Char.isWhitespace).reverse.dropWhile Char.isWhitespace).reverse

/-- Python `str.split(sep)` for a one-character separator: always at least
one group, empty groups kept. -/
def splitCharL (sep : Char) : List Char → List (List Char)
  | [] => [[]]
  | c :: rest =>
    match splitCharL sep rest with
    | [] => [[]]
    | g :: gs => if c = sep then [] :: g :: gs else (c :: g) :: gs

/-- Accumulator loop of Python `str.split()` (split on whitespace runs,
no empty groups). -/
def wordsAux : List Char → List Char → List (List Char)
  | [], acc => if acc.isEmpty then [] else [acc.reverse]
  | c :: rest, acc =>
    if c.isWhitespace then
      if acc.isEmpty then wordsAux rest [] else acc.reverse :: wordsAux rest []
    else
      wordsAux rest (c :: acc)

/-- Python `str.split()` with no separator argument. -/
def wordsL (cs : List Char) : List (List Char) :=
  wordsAux cs []

/-- Index of the first occurrence of `pat`, as Python `str.index` /
the `in` operator. -/
def findSubIdx (pat : List Char) : List Char → Option Nat
  | [] => if pat.isEmpty then some 0 else none
  | c :: rest =>
    if pat.isPrefixOf (c :: rest) then some 0
    else (findSubIdx pat rest).map (· + 1)

/-- Python `line.strip()`. -/
def pyStrip (s : String) : String :=
  ⟨stripL s.data⟩

/-- Python `line.lower()` (ASCII). -/
def pyLower (s : String) : String :=
  ⟨s.data.map lowerChar⟩

/-- Python `s.startswith(pre)`. -/
def pyStartsWith (s pre : String) : Bool :=
  pre.data.isPrefixOf s.data

/-- Python `s.split(',')`. -/
def pySplitComma (s : String) : List String :=
  (splitCharL ',' s.data).map (fun g => (⟨g⟩ : String))

/-- A non-empty unsigned digit run, as a `Nat`. -/
def parseDigitsL (cs : List Char) : Option Nat :=
  if cs.isEmpty then none
  else if allDigits cs then some (digitsToNat cs)
  else none

/-- Python `int(s)` on characters: strip whitespace, optional sign,
non-empty digit run. -/
def pyIntL (cs : List Char) : Option Int :=
  match stripL cs with
  | '-' :: rest => (parseDigitsL rest).map (fun n => -(n : Int))
  | '+' :: rest => (parseDigitsL rest).map (fun n => (n : Int))
  | t => (parseDigitsL t).map (fun n => (n : Int))

/-- Python `int(s)`. -/
def pyInt (s : String) : Option Int :=
  pyIntL s.data

/-- Mantissa of a float literal — `d+`, `d+.d*` or `.d*` with at least one
digit — as (digits value, number of fractional digits). -/
def parseMantL (cs : List Char) : Option (Nat × Nat) :=
  match splitCharL '.' cs with
  | [ip] =>
    if !ip.isEmpty && allDigits ip then some (digitsToNat ip, 0) else none
  | [ip, fp] =>
    if (!ip.isEmpty || !fp.isEmpty) && allDigits ip && allDigits fp then
      some (digitsToNat (ip ++ fp), fp.length)
    else none
  | _ => none

/-- Exponent part of a float literal: optional sign, non-empty digit run. -/
def parseExpL (cs : List Char) : Option Int :=
  match cs with
  | '-' :: rest => (parseDigitsL rest).map (fun n => -(n : Int))
  | '+' :: rest => (parseDigitsL rest).map (fun n => (n : Int))
  | t => (parseDigitsL t).map (fun n => (n : Int))

/-- Python `float(s)` over finite decimal literals, read exactly into
`Rat` (built with `mkRat` over powers of 10, no rounding). -/
def pyFloat (s : String) : Option Rat :=
  let t := (stripL s.data).map lowerChar
  let sgn : Int := match t with | '-' :: _ => -1 | _ => 1
  let body : List Char :=
    match t with
    | '-' :: rest => rest
    | '+' :: rest => rest
    | _ => t
  match splitCharL 'e' body with
  | [mant] =>
    (parseMantL mant).map (fun mk => mkRat (sgn * mk.1) (10 ^ mk.2))
  | [mant, ex] =>
    match parseMantL mant, parseExpL ex with
    | some mk, some e =>
      if 0 ≤ e then some (mkRat (sgn * mk.1 * 10 ^ e.toNat) (10 ^ mk.2))
      else some (mkRat (sgn * mk.1) (10 ^ mk.2 * 10 ^ (-e).toNat))
    | _, _ => none
  | _ => none

/-- `d[k]`, first binding wins (keys are unique in a dict anyway). -/
def alookup {β : Type} (l : List (String × β)) (k : String) : Option β :=
  match l with
  | [] => none
  | (k', v) :: rest => if k' = k then some v else alookup rest k

/-- Integer-keyed lookup, for the node and element dictionaries. -/
def ilookup {β : Type} (l : List (Int × β)) (k : Int) : Option β :=
  match l with
  | [] => none
  | (k', v) :: rest => if k' = k then some v else ilookup rest k

/-- Python `d[k] = v`: replace in place if the key exists, else append. -/
def iupsert {β : Type} (l : List (Int × β)) (k : Int) (v : β) : List (Int × β) :=
  match l with
  | [] => [(k, v)]
  | (k', v') :: rest =>
    if k' = k then (k', v) :: rest else (k', v') :: iupsert rest k v

/-- Python `d.setdefault(k, [])`: append an empty entry iff the key is new. -/
def setdefault {β : Type} (l : List (String × List β)) (k : String) :
    List (String × List β) :=
  if (alookup l k).isSome then l else l ++ [(k, [])]

/-- Python `d[k].extend(ids)` on an existing key (no-op on a missing key,
which the parser never hits because activation always `setdefault`s). -/
def extendAt {β : Type} (l : List (String × List β)) (k : String) (ids : List β) :
    List (String × List β) :=
  l.map (fun p => if p.1 = k then (p.1, p.2 ++ ids) else p)

/-- Python `d[k].append(x)` on an existing key. -/
def appendAt {β : Type} (l : List (String × List β)) (k : String) (x : β) :
    List (String × List β) :=
  extendAt l k [x]

/-! ## Parser state (`parse_inp` locals in src/main_Convert.py) -/

/-- The mutable locals of `parse_inp`: the five collections under
construction plus the section flags and the three "current named
collection" pointers. -/
structure ParseState where
  nodes : List (Int × (Rat × Rat × Rat))
  elements : List (Int × List Int)
  nsets : List (String × List Int)
  elsets : List (String × List Int)
  surfaces : List (String × List (Int × String))
  reading_nodes : Bool
  reading_elements : Bool
  current_nset_name : Option String
  current_elset_name : Option String
  current_surf_name : Option String
deriving Repr, DecidableEq

/-- Initial state of `parse_inp`: empty collections, no section, no active
named collection. -/
def initState : ParseState :=
  ⟨[], [], [], [], [], false, false, none, none, none⟩

/-- `key in lower` followed by `lower[lower.index(key)+len(key):].split(',')[0]
.strip().upper()`, with the Python truthiness test `if name:` folded in:
`none` both when the key is absent and when the extracted value is empty. -/
def extractAttr (lower key : String) : Option String :=
  match findSubIdx key.data lower.data with
  | none => none
  | some i =>
    let tail := lower.data.drop (i + key.data.length)
    let v := (stripL (tail.takeWhile (fun c => c ≠ ','))).map upperChar
    if v.isEmpty then none else some ⟨v⟩

/-- Directive handling of `parse_inp` (the `line_stripped.startswith('*')`
branch): clear both section flags, then dispatch on the lowercased line. -/
def processDirective (st : ParseState) (ls : String) : ParseState :=
  let st := { st with reading_nodes := false, reading_elements := false }
  let lower := pyLower ls
  if pyStartsWith lower "*node" then
    { st with reading_nodes := true }
  else if pyStartsWith lower "*element" then
    { st with reading_elements := true }
  else if pyStartsWith lower "*nset" then
    match extractAttr lower "nset=" with
    | some name =>
      { st with current_nset_name := some name,
                nsets := setdefault st.nsets name,
                current_elset_name := none,
                current_surf_name := none }
    | none => { st with current_nset_name := none }
  else if pyStartsWith lower "*elset" then
    match extractAttr lower "elset=" with
    | some name =>
      { st with current_elset_name := some name,
                elsets := setdefault st.elsets name,
                current_nset_name := none,
                current_surf_name := none }
    | none => { st with current_elset_name := none }
  else if pyStartsWith lower "*surface" then
    match extractAttr lower "name=" with
    | some name =>
      { st with current_surf_name := some name,
                surfaces := setdefault st.surfaces name,
                current_elset_name := none,
                current_nset_name := none }
    | none => st
  else st

/-- The `if reading_nodes: ... elif reading_elements: ...` block: node lines
with at least 4 comma fields record `nodes[nid] = (x, y, z)`; element lines
with at least 9 comma fields record `elements[eid] = [int(p) for p in
parts[1:9]]`; shorter lines are skipped silently.  A malformed numeric
token is the fatal Python `ValueError`. -/
def nodeEleStep (st : ParseState) (ls : String) : Except String ParseState :=
  if st.reading_nodes then
    let parts := pySplitComma ls
    if parts.length ≥ 4 then
      match pyInt (parts.getD 0 ""), pyFloat (parts.getD 1 ""),
            pyFloat (parts.getD 2 ""), pyFloat (parts.getD 3 "") with
      | some nid, some x, some y, some z =>
        .ok { st with nodes := iupsert st.nodes nid (x, y, z) }
      | _, _, _, _ => .error "ValueError"
    else
      .ok st
  else if st.reading_elements then
    let parts := pySplitComma ls
    if parts.length ≥ 9 then
      match pyInt (parts.getD 0 ""), ((parts.drop 1).take 8).mapM pyInt with
      | some eid, some conn =>
        .ok { st with elements := iupsert st.elements eid conn }
      | _, _ => .error "ValueError"
    else
      .ok st
  else
    .ok st

/-- `line_stripped.replace(',', ' ').split()`: comma- or whitespace-
delimited tokens, empty tokens discarded. -/
def setTokens (ls : String) : List String :=
  (wordsL (ls.data.map (fun c => if c = ',' then ' ' else c))).map
    (fun g => (⟨g⟩ : String))

/-- The `if current_nset_name is not None ...` block: every token of the
line is parsed as an integer and appended to the active node set. -/
def nsetStep (st : ParseState) (ls : String) : Except String ParseState :=
  match st.current_nset_name with
  | none => .ok st
  | some nm =>
    if !ls.data.isEmpty && !pyStartsWith ls "*" then
      match (setTokens ls).mapM pyInt with
      | some ids => .ok { st with nsets := extendAt st.nsets nm ids }
      | none => .error "ValueError"
    else
      .ok st

/-- The `if current_elset_name is not None ...` block, symmetric to
`nsetStep`. -/
def elsetStep (st : ParseState) (ls : String) : Except String ParseState :=
  match st.current_elset_name with
  | none => .ok st
  | some nm =>
    if !ls.data.isEmpty && !pyStartsWith ls "*" then
      match (setTokens ls).mapM pyInt with
      | some ids => .ok { st with elsets := extendAt st.elsets nm ids }
      | none => .error "ValueError"
    else
      .ok st

/-- The `if current_surf_name is not None ...` block:
`[id, surf] = line_stripped.split(',')` (ValueError unless the split yields
exactly two tokens), then `surfaces[name].append([int(id), surf])`. -/
def surfStep (st : ParseState) (ls : String) : Except String ParseState :=
  match st.current_surf_name with
  | none => .ok st
  | some nm =>
    if !ls.data.isEmpty && !pyStartsWith ls "*" then
      match pySplitComma ls with
      | [a, b] =>
        match pyInt a with
        | some i => .ok { st with surfaces := appendAt st.surfaces nm (i, b) }
        | none => .error "ValueError"
      | _ => .error "ValueError: unpacking"
    else
      .ok st

/-- One iteration of the `for line in f:` loop of `parse_inp`; the first
uncaught exception aborts the loop. -/
def processLine (st : ParseState) (line : String) : Except String ParseState :=
  let ls := pyStrip line
  if ls.data.isEmpty || pyStartsWith ls "**" then .ok st
  else if pyStartsWith ls "*" then .ok (processDirective st ls)
  else
    match nodeEleStep st ls with
    | .error e => .error e
    | .ok st1 =>
      match nsetStep st1 ls with
      | .error e => .error e
      | .ok st2 =>
        match elsetStep st2 ls with
        | .error e => .error e
        | .ok st3 => surfStep st3 ls

/-- The `for line in f:` loop from a given state. -/
def runLines (st : ParseState) : List String → Except String ParseState
  | [] => .ok st
  | l :: ls =>
    match processLine st l with
    | .error e => .error e
    | .ok st' => runLines st' ls

/-- `parse_inp`, over the list of input lines. -/
def parse_inp (lines : List String) : Except String ParseState :=
  runLines initState lines

/-! ## Static tables (src/config.py) -/

/-- `abq_surf_def`: node positions (1-based) associated with each face. -/
def abq_surf_def : List (String × List Nat) :=
  [("S1", [1, 2, 3, 4]), ("S2", [5, 8, 7, 6]), ("S3", [1, 5, 6, 2]),
   ("S4", [2, 6, 7, 3]), ("S5", [3, 7, 8, 4]), ("S6", [4, 8, 5, 1])]

/-- `nodeset_ssid`: destination IDs for node sets. -/
def nodeset_ssid : List (String × Int) :=
  [("K1A", 999), ("K2A", 888), ("K1B", 777), ("K2B", 666)]

/-- `segmentset_ssid`: destination IDs for surface (segment) sets. -/
def segmentset_ssid : List (String × Int) :=
  [("FACEK1A", 555), ("FACEK2A", 444), ("FACEK1B", 333), ("FACEK2B", 222),
   ("OUTERS", 111), ("ELSURF", 1111)]

/-- `elementset_ssid`: destination IDs for element sets. -/
def elementset_ssid : List (String × Int) :=
  [("FLUID1", 2222), ("FLUID2", 3333)]

/-! ## Writer (`write_k` in src/main_Convert.py)

The writer is modelled as a function to `(lines, error?)`: the list of
output lines written before the first uncaught exception (if any), in
order, one string per `\n`-terminated `f.write`.  The `with open(...)`
block flushes on the exception path, so on an error the lines already
written are exactly the partial output the real program leaves behind. -/

/-- Iteration over a dict in ascending key order:
`for k in sorted(d.keys()): ... d[k] ...` (dict keys are unique). -/
def sortedEntries {β : Type} (l : List (Int × β)) : List (Int × β) :=
  l.insertionSort (fun a b => a.1 ≤ b.1)

/-- Coordinate text: stands in for Python `"{:g}".format(x)`.  No claim
considered here reads the text of a node line, only its presence and
position, so the exact digit rendering is left abstract. -/
def fmtCoord (q : Rat) : String :=
  toString q

/-- One `*DUALCESE_NODE3D` data line: `"{:d}, {:g}, {:g}, {:g}, {:g}, {:g}"`
with the two literal zero paddings. -/
def nodeLine (nid : Int) (c : Rat × Rat × Rat) : String :=
  toString nid ++ ", " ++ fmtCoord c.1 ++ ", " ++ fmtCoord c.2.1 ++ ", " ++
    fmtCoord c.2.2 ++ ", 0, 0"

/-- The node block: directive, then one line per node in ascending ID
order. -/
def nodeBlockLines (nodes : List (Int × (Rat × Rat × Rat))) : List String :=
  "*DUALCESE_NODE3D" :: (sortedEntries nodes).map (fun p => nodeLine p.1 p.2)

/-- One `*DUALCESE_ELE3D` data line: `f"{eid}, {pid}"` with `pid = 1`,
then `", {:d}"` per connectivity entry. -/
def eleLine (eid : Int) (conn : List Int) : String :=
  conn.foldl (fun s nn => s ++ ", " ++ toString nn) (toString eid ++ ", 1")

/-- The element block: directive, then the loop over ascending element IDs
that writes a line when `len(conn) == 8` and silently passes otherwise. -/
def eleBlockLines (elements : List (Int × List Int)) : List String :=
  "*DUALCESE_ELE3D" ::
    (sortedEntries elements).foldr
      (fun p acc => if p.2.length = 8 then eleLine p.1 p.2 :: acc else acc) []

/-- Python `sorted(set(node_list))`: remove duplicates, sort ascending. -/
def sortedDedup (l : List Int) : List Int :=
  l.dedup.insertionSort (· ≤ ·)

/-- Fuel-driven loop of the `range(0, len(lst), 8)` chunking; the fuel is
always at least the list length, so the middle case never fires. -/
def chunks8Fuel : Nat → List Int → List (List Int)
  | _, [] => []
  | 0, l => [l]
  | fuel + 1, x :: xs => ((x :: xs).take 8) :: chunks8Fuel fuel ((x :: xs).drop 8)

/-- `range(0, len(lst), 8)` chunking: split a list into consecutive chunks
of 8, the last possibly shorter. -/
def chunks8 (l : List Int) : List (List Int) :=
  chunks8Fuel l.length l

/-- One chunk line: `", ".join(str(n) for n in chunk)`. -/
def chunkLine (chunk : List Int) : String :=
  String.intercalate ", " (chunk.map toString)

/-- One node-set block.  The comment line and the directive line are
written BEFORE the `config.nodeset_ssid[set_name]` lookup, so on a missing
name they are already part of the output when the KeyError aborts. -/
def nsetBlock (p : String × List Int) : List String × Option String :=
  let hdr := ["$ Node set: " ++ p.1, "*DUALCESE_NODESET"]
  match alookup nodeset_ssid p.1 with
  | none => (hdr, some ("KeyError: nodeset_ssid " ++ p.1))
  | some curid =>
    (hdr ++ ("       " ++ toString curid)
        :: (chunks8 (sortedDedup p.2)).map chunkLine, none)

/-- `get_surface_nodes` (nested in `write_k`): element connectivity lookup,
face lookup in `abq_surf_def`, 1-based to 0-based conversion, then indexing
the connectivity in the table's order.  `none` models the fatal
KeyError/IndexError. -/
def get_surface_nodes (elements : List (Int × List Int)) (elmid : Int)
    (faceid : String) : Option (List Int) :=
  match ilookup elements elmid with
  | none => none
  | some curelm =>
    match alookup abq_surf_def faceid with
    | none => none
    | some curnodes =>
      (curnodes.map (fun i => i - 1)).mapM (fun i => curelm.get? i)

/-- One segment data line: the 4 resolved node IDs then 4 literal `0.0`
paddings. -/
def segLine (ns : List Int) : String :=
  toString (ns.getD 0 0) ++ ", " ++ toString (ns.getD 1 0) ++ ", " ++
    toString (ns.getD 2 0) ++ ", " ++ toString (ns.getD 3 0) ++
    ",0.0,0.0,0.0,0.0"

/-- The loop over a surface's (element, face) pairs; aborts at the first
unresolvable pair. -/
def segLines (elements : List (Int × List Int)) :
    List (Int × String) → List String × Option String
  | [] => ([], none)
  | (elmid, faceid) :: rest =>
    match get_surface_nodes elements elmid faceid with
    | none => ([], some "KeyError: surface lookup")
    | some ns =>
      let r := segLines elements rest
      (segLine ns :: r.1, r.2)

/-- One surface-set block (comment and directive lines written before the
`config.segmentset_ssid[set_name]` lookup). -/
def surfBlock (elements : List (Int × List Int))
    (p : String × List (Int × String)) : List String × Option String :=
  let hdr := ["$ Surface set: " ++ p.1, "*DUALCESE_SEGMENTSET"]
  match alookup segmentset_ssid p.1 with
  | none => (hdr, some ("KeyError: segmentset_ssid " ++ p.1))
  | some curid =>
    let r := segLines elements p.2
    (hdr ++ ("       " ++ toString curid) :: r.1, r.2)

/-- One element-set block (comment and directive lines written before the
`config.elementset_ssid[set_name]` lookup; note the 6-space ID indent). -/
def elsetBlock (p : String × List Int) : List String × Option String :=
  let hdr := ["$ Element set: " ++ p.1, "*DUALCESE_ELEMENTSET"]
  match alookup elementset_ssid p.1 with
  | none => (hdr, some ("KeyError: elementset_ssid " ++ p.1))
  | some curid =>
    (hdr ++ ("      " ++ toString curid)
        :: (chunks8 (sortedDedup p.2)).map chunkLine, none)

/-- Concatenate block outputs in order, stopping at the first failing
block and keeping the lines it wrote before failing. -/
def emitSeq : List (List String × Option String) → List String × Option String
  | [] => ([], none)
  | (ls, some e) :: _ => (ls, some e)
  | (ls, none) :: rest =>
    let r := emitSeq rest
    (ls ++ r.1, r.2)

/-- The blocks of `write_k` in source order: nodes, elements, node sets,
surface sets, element sets, `*END`. -/
def blockSeq (m : ParseState) : List (List String × Option String) :=
  (nodeBlockLines m.nodes, none) :: (eleBlockLines m.elements, none) ::
    (m.nsets.map nsetBlock ++ m.surfaces.map (surfBlock m.elements) ++
     m.elsets.map elsetBlock ++ [(["*END"], none)])

/-- `write_k`: the whole output stream, with the first uncaught exception
if one occurs. -/
def write_k (m : ParseState) : List String × Option String :=
  emitSeq (blockSeq m)

/-! ## Helper lemmas -/

theorem get?_eq_getD_of_lt :
    ∀ (l : List Int) (i : Nat), i < l.length → l.get? i = some (l.getD i 0) := by
  intro l
  induction l with
  | nil => intro i h; simp at h
  | cons a t ih =>
    intro i h
    cases i with
    | zero => rfl
    | succ j =>
      have := ih j (by simpa using Nat.lt_of_succ_lt_succ h)
      simpa [List.get?, List.getD] using this

theorem mapM_get?_of_lt (conn : List Int) :
    ∀ (idx : List Nat), (∀ i ∈ idx, i < conn.length) →
      idx.mapM (fun i => conn.get? i) = some (idx.map (fun i => conn.getD i 0)) := by
  intro idx
  induction idx with
  | nil => intro _; rfl
  | cons a t ih =>
    intro h
    rw [List.mapM_cons, get?_eq_getD_of_lt conn a (h a (by simp)),
      ih (fun i hi => h i (by simp [hi]))]
    rfl

/-- Every face in `abq_surf_def` lists exactly 4 positions, all in 1..8. -/
theorem abq_surf_def_bounds (faceid : String) (ps : List Nat)
    (h : alookup abq_surf_def faceid = some ps) :
    ps.length = 4 ∧ ∀ p ∈ ps, 1 ≤ p ∧ p ≤ 8 := by
  simp only [abq_surf_def, alookup] at h
  split_ifs at h <;> (cases h; exact ⟨by decide, by decide⟩)

/-! ## Claim theorems -/

/-- C3: for every 8-entry connectivity and face label present in
`abq_surf_def`, `get_surface_nodes` returns exactly the 4 global node IDs
obtained by taking the table's 1-based positions, converting them to
0-based indices, and indexing the connectivity in the table's order; on
`[10,…,17]` face `"S1"` it returns `[10,11,12,13]`; a face label absent
from the table, or an element ID absent from the model, is the fatal
lookup error (`none`). -/
theorem c3_resolve_face :
    (∀ (elements : List (Int × List Int)) (elmid : Int) (conn : List Int)
        (faceid : String) (ps : List Nat),
        ilookup elements elmid = some conn → conn.length = 8 →
        alookup abq_surf_def faceid = some ps →
        get_surface_nodes elements elmid faceid =
          some (ps.map (fun p => conn.getD (p - 1) 0)) ∧
        (ps.map (fun p => conn.getD (p - 1) 0)).length = 4) ∧
    get_surface_nodes [(1, [10, 11, 12, 13, 14, 15, 16, 17])] 1 "S1" =
      some [10, 11, 12, 13] ∧
    (∀ (elements : List (Int × List Int)) (elmid : Int) (faceid : String),
        alookup abq_surf_def faceid = none →
        get_surface_nodes elements elmid faceid = none) ∧
    (∀ (elements : List (Int × List Int)) (elmid : Int) (faceid : String),
        ilookup elements elmid = none →
        get_surface_nodes elements elmid faceid = none) := by
  refine ⟨?_, by decide, ?_, ?_⟩
  · intro elements elmid conn faceid ps h1 hlen h3
    obtain ⟨hps4, hbound⟩ := abq_surf_def_bounds faceid ps h3
    constructor
    · simp only [get_surface_nodes, h1, h3]
      rw [mapM_get?_of_lt conn (ps.map (fun i => i - 1))
        (by
          intro i hi
          obtain ⟨p, hp, rfl⟩ := List.mem_map.mp hi
          have := (hbound p hp).2
          omega)]
      rw [List.map_map]
      rfl
    · simp [hps4]
  · intro elements elmid faceid h
    simp only [get_surface_nodes, h]
    cases ilookup elements elmid <;> rfl
  · intro elements elmid faceid h
    simp [get_surface_nodes, h]

/-- Witness for C3: the general clause applied to element 2 with
connectivity `[10,…,17]` and face `"S2"`. -/
theorem c3_resolve_face_witness :
    get_surface_nodes [((2 : Int), [10, 11, 12, 13, 14, 15, 16, 17])] 2 "S2" =
      some (([5, 8, 7, 6] : List Nat).map
        (fun p => ([10, 11, 12, 13, 14, 15, 16, 17] : List Int).getD (p - 1) 0)) ∧
    (([5, 8, 7, 6] : List Nat).map
        (fun p => ([10, 11, 12, 13, 14, 15, 16, 17] : List Int).getD (p - 1) 0)).length = 4 :=
  c3_resolve_face.1 _ 2 _ "S2" _ (by decide) (by decide) (by decide)

theorem sortedDedup_sorted (l : List Int) :
    (sortedDedup l).Sorted (· ≤ ·) :=
  List.sorted_insertionSort _ _

theorem sortedDedup_perm_dedup (l : List Int) :
    List.Perm (sortedDedup l) l.dedup :=
  List.perm_insertionSort _ _

theorem sortedDedup_nodup (l : List Int) : (sortedDedup l).Nodup :=
  (sortedDedup_perm_dedup l).nodup_iff.mpr l.nodup_dedup

theorem mem_sortedDedup {x : Int} {l : List Int} :
    x ∈ sortedDedup l ↔ x ∈ l := by
  rw [(sortedDedup_perm_dedup l).mem_iff, List.mem_dedup]

theorem chunks8Fuel_irrel :
    ∀ (f f' : Nat) (l : List Int), l.length ≤ f → l.length ≤ f' →
      chunks8Fuel f l = chunks8Fuel f' l := by
  intro f
  induction f with
  | zero =>
    intro f' l h h'
    have : l = [] := List.length_eq_zero.mp (Nat.le_zero.mp h)
    subst this
    cases f' <;> simp [chunks8Fuel]
  | succ f ih =>
    intro f' l h h'
    cases l with
    | nil => cases f' <;> simp [chunks8Fuel]
    | cons x xs =>
      cases f' with
      | zero => simp at h'
      | succ g =>
        simp only [chunks8Fuel]
        congr 1
        apply ih
        · simp only [List.length_drop, List.length_cons]
          simp only [List.length_cons] at h
          omega
        · simp only [List.length_drop, List.length_cons]
          simp only [List.length_cons] at h'
          omega

theorem chunks8_nil : chunks8 [] = [] := rfl

theorem chunks8_cons (x : Int) (xs : List Int) :
    chunks8 (x :: xs) = ((x :: xs).take 8) :: chunks8 ((x :: xs).drop 8) := by
  show chunks8Fuel (x :: xs).length (x :: xs) = _
  have hlc : (x :: xs).length = xs.length + 1 := rfl
  rw [hlc]
  simp only [chunks8Fuel]
  congr 1
  apply chunks8Fuel_irrel
  · simp only [List.length_drop, List.length_cons]
    omega
  · exact le_rfl

theorem chunks8_ne_nil {l : List Int} (h : l ≠ []) : chunks8 l ≠ [] := by
  cases l with
  | nil => exact absurd rfl h
  | cons x xs => rw [chunks8_cons]; simp

theorem chunks8_spec :
    ∀ (l : List Int),
      (chunks8 l).flatten = l ∧
      (∀ c ∈ chunks8 l, c.length ≤ 8 ∧ c ≠ []) ∧
      (∀ c ∈ (chunks8 l).dropLast, c.length = 8) := by
  have main : ∀ (n : Nat) (l : List Int), l.length ≤ n →
      (chunks8 l).flatten = l ∧
      (∀ c ∈ chunks8 l, c.length ≤ 8 ∧ c ≠ []) ∧
      (∀ c ∈ (chunks8 l).dropLast, c.length = 8) := by
    intro n
    induction n with
    | zero =>
      intro l h
      have : l = [] := List.length_eq_zero.mp (Nat.le_zero.mp h)
      subst this
      exact ⟨by simp [chunks8_nil], by simp [chunks8_nil], by simp [chunks8_nil]⟩
    | succ n ih =>
      intro l h
      cases l with
      | nil => exact ⟨by simp [chunks8_nil], by simp [chunks8_nil], by simp [chunks8_nil]⟩
      | cons x xs =>
        have hdrop : ((x :: xs).drop 8).length ≤ n := by
          simp only [List.length_drop, List.length_cons]
          simp only [List.length_cons] at h
          omega
        obtain ⟨ihf, ihm, ihd⟩ := ih ((x :: xs).drop 8) hdrop
        refine ⟨?_, ?_, ?_⟩
        · rw [chunks8_cons]
          simp only [List.flatten_cons, ihf]
          exact List.take_append_drop 8 (x :: xs)
        · rw [chunks8_cons]
          intro c hc
          rcases List.mem_cons.mp hc with rfl | hc
          · exact ⟨by simp, by simp⟩
          · exact ihm c hc
        · rw [chunks8_cons]
          intro c hc
          by_cases hnil : (x :: xs).drop 8 = []
          · rw [hnil] at hc
            rw [chunks8_nil] at hc
            simp at hc
          · rw [List.dropLast_cons_of_ne_nil (chunks8_ne_nil hnil)] at hc
            rcases List.mem_cons.mp hc with rfl | hc
            · have hgt : 8 < (x :: xs).length := by
                by_contra hle
                push_neg at hle
                exact hnil (List.drop_eq_nil_of_le hle)
              rw [List.length_take]
              omega
            · exact ihd c hc
  intro l
  exact main l.length l le_rfl

/-- C4: the emitted member list of every node-set and element-set block is
the ascending-sorted deduplication of the accumulated members — invariant
under re-ordering and duplication of member IDs ({1,2,2,3} and {3,1,2}
both give [1,2,3]) — chunked into lines of 8 comma-separated IDs, only
the last chunk possibly shorter. -/
theorem c4_set_member_emission :
    (∀ l l' : List Int, (∀ x, x ∈ l ↔ x ∈ l') → sortedDedup l = sortedDedup l') ∧
    (sortedDedup [1, 2, 2, 3] = [1, 2, 3] ∧ sortedDedup [3, 1, 2] = [1, 2, 3]) ∧
    (∀ l : List Int,
      (chunks8 l).flatten = l ∧
      (∀ c ∈ chunks8 l, c.length ≤ 8 ∧ c ≠ []) ∧
      (∀ c ∈ (chunks8 l).dropLast, c.length = 8)) ∧
    (∀ (name : String) (members : List Int) (curid : Int),
      alookup nodeset_ssid name = some curid →
      nsetBlock (name, members) =
        (("$ Node set: " ++ name) :: "*DUALCESE_NODESET" ::
          ("       " ++ toString curid) ::
          (chunks8 (sortedDedup members)).map chunkLine, none)) ∧
    (∀ (name : String) (members : List Int) (curid : Int),
      alookup elementset_ssid name = some curid →
      elsetBlock (name, members) =
        (("$ Element set: " ++ name) :: "*DUALCESE_ELEMENTSET" ::
          ("      " ++ toString curid) ::
          (chunks8 (sortedDedup members)).map chunkLine, none)) := by
  refine ⟨?_, ⟨by decide, by decide⟩, chunks8_spec, ?_, ?_⟩
  · intro l l' hmem
    refine List.eq_of_perm_of_sorted ?_ (sortedDedup_sorted l) (sortedDedup_sorted l')
    refine (List.perm_ext_iff_of_nodup (sortedDedup_nodup l) (sortedDedup_nodup l')).mpr ?_
    intro a
    rw [mem_sortedDedup, mem_sortedDedup]
    exact hmem a
  · intro name members curid h
    simp [nsetBlock, h]
  · intro name members curid h
    simp [elsetBlock, h]

/-- Witness for C4: the invariance clause applied to `[1,2,2,3]` and
`[3,1,2]`, and the node-set block clause applied to set `K1A`. -/
theorem c4_set_member_emission_witness :
    sortedDedup [1, 2, 2, 3] = sortedDedup [3, 1, 2] ∧
    nsetBlock ("K1A", [3, 1, 2, 2]) =
      (("$ Node set: " ++ "K1A") :: "*DUALCESE_NODESET" ::
        ("       " ++ toString (999 : Int)) ::
        (chunks8 (sortedDedup [3, 1, 2, 2])).map chunkLine, none) :=
  ⟨c4_set_member_emission.1 [1, 2, 2, 3] [3, 1, 2] (by intro x; constructor <;>
      (intro hx; simp only [List.mem_cons, List.not_mem_nil, or_false] at hx ⊢; tauto)),
   (c4_set_member_emission.2.2.2.1) "K1A" [3, 1, 2, 2] 999 (by decide)⟩

instance instKeyLeTotal {β : Type} : IsTotal (Int × β) (fun a b => a.1 ≤ b.1) :=
  ⟨fun a b => le_total a.1 b.1⟩

instance instKeyLeTrans {β : Type} : IsTrans (Int × β) (fun a b => a.1 ≤ b.1) :=
  ⟨fun _ _ _ h1 h2 => le_trans h1 h2⟩

theorem sortedEntries_perm {β : Type} (l : List (Int × β)) :
    List.Perm (sortedEntries l) l :=
  List.perm_insertionSort _ _

theorem sortedEntries_sorted {β : Type} (l : List (Int × β)) :
    List.Sorted (fun a b => a.1 ≤ b.1) (sortedEntries l) :=
  List.sorted_insertionSort _ _

theorem intercalate_go_foldl (s : String) :
    ∀ (l : List String) (acc : String),
      String.intercalate.go acc s l = l.foldl (fun r x => r ++ s ++ x) acc := by
  intro l
  induction l with
  | nil => intro acc; rfl
  | cons a t ih =>
    intro acc
    rw [String.intercalate.go, List.foldl_cons, ih]

theorem intercalate_cons_foldl (s a : String) (l : List String) :
    String.intercalate s (a :: l) = l.foldl (fun r x => r ++ s ++ x) a := by
  show String.intercalate.go a s l = _
  exact intercalate_go_foldl s l a

theorem eleLine_intercalate (eid : Int) (conn : List Int) :
    eleLine eid conn =
      String.intercalate ", " (toString eid :: "1" :: conn.map toString) := by
  rw [intercalate_cons_foldl, List.foldl_cons, List.foldl_map]
  unfold eleLine
  have h1 : (", " ++ "1" : String) = ", 1" := by decide
  have hacc : toString eid ++ ", 1" = toString eid ++ ", " ++ "1" := by
    rw [String.append_assoc, h1]
  rw [hacc]

theorem foldr_filter_eleLine (l : List (Int × List Int)) :
    l.foldr (fun p acc => if p.2.length = 8 then eleLine p.1 p.2 :: acc else acc) [] =
      (l.filter (fun p => p.2.length == 8)).map (fun p => eleLine p.1 p.2) := by
  induction l with
  | nil => rfl
  | cons a t ih =>
    by_cases h : a.2.length = 8 <;> simp [List.filter_cons, h, ih]

/-- C7: the emitted element block is the directive line followed by one
line per element whose connectivity has exactly 8 entries, iterated in
ascending element-ID order, each line being the element ID, the constant
part ID 1 and the 8 node IDs, comma-separated; elements of any other
connectivity length are omitted with no warning and no error
(`sortedEntries` is a permutation of the element dict with sorted keys,
so each 8-connectivity element contributes exactly one line). -/
theorem c7_element_block (elements : List (Int × List Int)) :
    eleBlockLines elements =
      "*DUALCESE_ELE3D" ::
        ((sortedEntries elements).filter (fun p => p.2.length == 8)).map
          (fun p => eleLine p.1 p.2) ∧
    ((sortedEntries elements).map Prod.fst).Sorted (· ≤ ·) ∧
    List.Perm (sortedEntries elements) elements ∧
    ∀ (eid : Int) (conn : List Int),
      eleLine eid conn =
        String.intercalate ", " (toString eid :: "1" :: conn.map toString) := by
  refine ⟨?_, ?_, sortedEntries_perm elements, fun eid conn => eleLine_intercalate eid conn⟩
  · unfold eleBlockLines
    rw [foldr_filter_eleLine]
  · rw [List.Sorted, List.pairwise_map]
    exact sortedEntries_sorted elements

theorem mapM_some_length {α β : Type} (f : α → Option β) :
    ∀ (l : List α) (r : List β), l.mapM f = some r → r.length = l.length := by
  intro l
  induction l with
  | nil =>
    intro r h
    simp only [List.mapM_nil, Option.pure_def, Option.some.injEq] at h
    simp [← h]
  | cons a t ih =>
    intro r h
    rw [List.mapM_cons] at h
    cases hfa : f a with
    | none => rw [hfa] at h; simp at h
    | some x =>
      rw [hfa] at h
      cases hmt : t.mapM f with
      | none => rw [hmt] at h; simp at h
      | some xs =>
        rw [hmt] at h
        simp only [Option.pure_def, Option.bind_eq_bind, Option.some_bind,
          Option.some.injEq] at h
        rw [← h]
        simp [ih xs hmt]

theorem nodeEleStep_idle {st : ParseState} {ls : String}
    (h1 : st.reading_nodes = false) (h2 : st.reading_elements = false) :
    nodeEleStep st ls = .ok st := by
  simp [nodeEleStep, h1, h2]

theorem nsetStep_none {st : ParseState} {ls : String}
    (h : st.current_nset_name = none) : nsetStep st ls = .ok st := by
  simp [nsetStep, h]

theorem elsetStep_none {st : ParseState} {ls : String}
    (h : st.current_elset_name = none) : elsetStep st ls = .ok st := by
  simp [elsetStep, h]

theorem surfStep_none {st : ParseState} {ls : String}
    (h : st.current_surf_name = none) : surfStep st ls = .ok st := by
  simp [surfStep, h]

/-- On a non-blank, non-comment, non-directive line, `processLine` is the
sequence of the four data handlers, each fatal error aborting. -/
theorem processLine_data_eq (st : ParseState) (s : String)
    (htrim : pyStrip s = s) (hne : s.data.isEmpty = false)
    (hss : pyStartsWith s "*" = false) (hss2 : pyStartsWith s "**" = false) :
    processLine st s =
      match nodeEleStep st s with
      | .error e => .error e
      | .ok st1 =>
        match nsetStep st1 s with
        | .error e => .error e
        | .ok st2 =>
          match elsetStep st2 s with
          | .error e => .error e
          | .ok st3 => surfStep st3 s := by
  simp [processLine, htrim, hne, hss, hss2]

/-- On a directive line, `processLine` is `processDirective`. -/
theorem processLine_directive_eq (st : ParseState) (s : String)
    (htrim : pyStrip s = s) (hne : s.data.isEmpty = false)
    (hss : pyStartsWith s "*" = true) (hss2 : pyStartsWith s "**" = false) :
    processLine st s = .ok (processDirective st s) := by
  simp [processLine, htrim, hne, hss, hss2]

/-- C2: while the Elements section is active (and no named collection is),
an element data line splitting on commas into at least 9 fields whose
first 9 fields are valid integers records `elements[field 1] = fields 2–9`
(exactly 8 connectivity entries, extra trailing fields ignored); a line
with fewer than 9 comma fields records no element and raises no error. -/
theorem c2_element_data_lines (st : ParseState) (s : String)
    (htrim : pyStrip s = s) (hne : s.data.isEmpty = false)
    (hss : pyStartsWith s "*" = false) (hss2 : pyStartsWith s "**" = false)
    (hrn : st.reading_nodes = false) (hre : st.reading_elements = true)
    (hn : st.current_nset_name = none) (he : st.current_elset_name = none)
    (hsu : st.current_surf_name = none) :
    (∀ (eid : Int) (conn : List Int),
      (pySplitComma s).length ≥ 9 →
      pyInt ((pySplitComma s).getD 0 "") = some eid →
      (((pySplitComma s).drop 1).take 8).mapM pyInt = some conn →
      processLine st s = .ok { st with elements := iupsert st.elements eid conn } ∧
      conn.length = 8) ∧
    ((pySplitComma s).length < 9 → processLine st s = .ok st) := by
  constructor
  · intro eid conn hlen hid hconn
    have hstep : nodeEleStep st s =
        .ok { st with elements := iupsert st.elements eid conn } := by
      simp only [nodeEleStep]
      rw [if_neg (by simp [hrn]), if_pos hre, if_pos hlen, hid, hconn]
    have hlen8 : conn.length = 8 := by
      rw [mapM_some_length pyInt _ _ hconn]
      simp only [List.length_take, List.length_drop]
      omega
    refine ⟨?_, hlen8⟩
    have h2 : nsetStep { st with elements := iupsert st.elements eid conn } s =
        .ok { st with elements := iupsert st.elements eid conn } :=
      nsetStep_none (by simp [hn])
    have h3 : elsetStep { st with elements := iupsert st.elements eid conn } s =
        .ok { st with elements := iupsert st.elements eid conn } :=
      elsetStep_none (by simp [he])
    have h4 : surfStep { st with elements := iupsert st.elements eid conn } s =
        .ok { st with elements := iupsert st.elements eid conn } :=
      surfStep_none (by simp [hsu])
    rw [processLine_data_eq st s htrim hne hss hss2, hstep]
    simp only [h2, h3, h4]
  · intro hlt
    have hstep : nodeEleStep st s = .ok st := by
      simp only [nodeEleStep]
      rw [if_neg (by simp [hrn]), if_pos hre, if_neg (by omega)]
    rw [processLine_data_eq st s htrim hne hss hss2, hstep]
    simp only [nsetStep_none hn, elsetStep_none he, surfStep_none hsu]

/-- Witness for C2: a 10-field line records element 7 with connectivity
`[1,…,8]`, the trailing 10th field ignored; a 3-field line is a no-op. -/
theorem c2_element_data_lines_witness :
    (processLine
        { initState with reading_elements := true } "7,1,2,3,4,5,6,7,8,99" =
      .ok { initState with
            reading_elements := true
            elements := iupsert initState.elements 7 [1, 2, 3, 4, 5, 6, 7, 8] } ∧
      ([1, 2, 3, 4, 5, 6, 7, 8] : List Int).length = 8) ∧
    processLine { initState with reading_elements := true } "7,1" =
      .ok { initState with reading_elements := true } :=
  ⟨(c2_element_data_lines { initState with reading_elements := true }
      "7,1,2,3,4,5,6,7,8,99" rfl rfl rfl rfl rfl rfl rfl rfl rfl).1
        7 [1, 2, 3, 4, 5, 6, 7, 8] (by decide) (by decide) (by decide),
   (c2_element_data_lines { initState with reading_elements := true }
      "7,1" rfl rfl rfl rfl rfl rfl rfl rfl rfl).2 (by decide)⟩

/-- Running the line loop over appended inputs: an error in the first part
aborts, otherwise the loop continues from the intermediate state. -/
theorem runLines_append (st0 : ParseState) (l1 l2 : List String) :
    runLines st0 (l1 ++ l2) =
      match runLines st0 l1 with
      | .error e => .error e
      | .ok st' => runLines st' l2 := by
  induction l1 generalizing st0 with
  | nil => rfl
  | cons a t ih =>
    simp only [List.cons_append, runLines]
    cases processLine st0 a <;> simp [ih]

/-- C6: while the Nodes section is active (and no named collection is), a
node data line splitting on commas into at least 4 fields records
`nodes[field 1] = (float field 2, float field 3, float field 4)`, extra
trailing fields ignored; a line with fewer than 4 comma fields records no
node. -/
theorem c6_node_data_lines (st : ParseState) (s : String)
    (htrim : pyStrip s = s) (hne : s.data.isEmpty = false)
    (hss : pyStartsWith s "*" = false) (hss2 : pyStartsWith s "**" = false)
    (hrn : st.reading_nodes = true)
    (hn : st.current_nset_name = none) (he : st.current_elset_name = none)
    (hsu : st.current_surf_name = none) :
    (∀ (nid : Int) (x y z : Rat),
      (pySplitComma s).length ≥ 4 →
      pyInt ((pySplitComma s).getD 0 "") = some nid →
      pyFloat ((pySplitComma s).getD 1 "") = some x →
      pyFloat ((pySplitComma s).getD 2 "") = some y →
      pyFloat ((pySplitComma s).getD 3 "") = some z →
      processLine st s = .ok { st with nodes := iupsert st.nodes nid (x, y, z) }) ∧
    ((pySplitComma s).length < 4 → processLine st s = .ok st) := by
  constructor
  · intro nid x y z hlen hid hx hy hz
    have hstep : nodeEleStep st s =
        .ok { st with nodes := iupsert st.nodes nid (x, y, z) } := by
      simp only [nodeEleStep]
      rw [if_pos hrn, if_pos hlen, hid, hx, hy, hz]
    have h2 : nsetStep { st with nodes := iupsert st.nodes nid (x, y, z) } s =
        .ok { st with nodes := iupsert st.nodes nid (x, y, z) } :=
      nsetStep_none (by simp [hn])
    have h3 : elsetStep { st with nodes := iupsert st.nodes nid (x, y, z) } s =
        .ok { st with nodes := iupsert st.nodes nid (x, y, z) } :=
      elsetStep_none (by simp [he])
    have h4 : surfStep { st with nodes := iupsert st.nodes nid (x, y, z) } s =
        .ok { st with nodes := iupsert st.nodes nid (x, y, z) } :=
      surfStep_none (by simp [hsu])
    rw [processLine_data_eq st s htrim hne hss hss2, hstep]
    simp only [h2, h3, h4]
  · intro hlt
    have hstep : nodeEleStep st s = .ok st := by
      simp only [nodeEleStep]
      rw [if_pos hrn, if_neg (by omega)]
    rw [processLine_data_eq st s htrim hne hss hss2, hstep]
    simp only [nsetStep_none hn, elsetStep_none he, surfStep_none hsu]

/-- Witness for C6: `"1, 0.5, 0.25, 2e1"` records node 1 at
`(1/2, 1/4, 20)`; the 3-field line `"1, 2, 3"` records nothing. -/
theorem c6_node_data_lines_witness :
    processLine { initState with reading_nodes := true } "1, 0.5, 0.25, 2e1" =
      .ok { initState with
            reading_nodes := true
            nodes := iupsert initState.nodes 1 (mkRat 5 10, mkRat 25 100, mkRat 20 1) } ∧
    processLine { initState with reading_nodes := true } "1, 2, 3" =
      .ok { initState with reading_nodes := true } :=
  ⟨(c6_node_data_lines { initState with reading_nodes := true } "1, 0.5, 0.25, 2e1"
      rfl rfl rfl rfl rfl rfl rfl rfl).1 1 (mkRat 5 10) (mkRat 25 100) (mkRat 20 1)
      (by decide) (by decide) (by decide) (by decide) (by decide),
   (c6_node_data_lines { initState with reading_nodes := true } "1, 2, 3"
      rfl rfl rfl rfl rfl rfl rfl rfl).2 (by decide)⟩

/-- C5: while a named surface is active, a non-directive line must split on
commas into exactly two tokens, an integer element ID and a face label
string, appended as a pair to the surface's list; any other number of comma
tokens is the fatal unpacking `ValueError`, which aborts the whole
conversion (`runLines` propagates it to the end of the input). -/
theorem c5_surface_data_lines (st : ParseState) (s : String) (nm : String)
    (htrim : pyStrip s = s) (hne : s.data.isEmpty = false)
    (hss : pyStartsWith s "*" = false) (hss2 : pyStartsWith s "**" = false)
    (hrn : st.reading_nodes = false) (hre : st.reading_elements = false)
    (hn : st.current_nset_name = none) (he : st.current_elset_name = none)
    (hsu : st.current_surf_name = some nm) :
    (∀ (a b : String) (i : Int),
      pySplitComma s = [a, b] → pyInt a = some i →
      processLine st s = .ok { st with surfaces := appendAt st.surfaces nm (i, b) }) ∧
    ((pySplitComma s).length ≠ 2 →
      processLine st s = .error "ValueError: unpacking" ∧
      ∀ (pre rest : List String) (st0 : ParseState),
        runLines st0 pre = .ok st →
        runLines st0 (pre ++ s :: rest) = .error "ValueError: unpacking") := by
  have hguard : (!s.data.isEmpty && !pyStartsWith s "*") = true := by
    simp [hne, hss]
  have hidle : nodeEleStep st s = .ok st := nodeEleStep_idle hrn hre
  constructor
  · intro a b i hsplit hi
    have hsurf : surfStep st s =
        .ok { st with surfaces := appendAt st.surfaces nm (i, b) } := by
      simp only [surfStep, hsu]
      rw [if_pos hguard, hsplit]
      simp only [hi]
    rw [processLine_data_eq st s htrim hne hss hss2, hidle]
    simp only [nsetStep_none hn, elsetStep_none he, hsurf]
  · intro hlen
    have hsurf : surfStep st s = .error "ValueError: unpacking" := by
      simp only [surfStep, hsu]
      rw [if_pos hguard]
      rcases hsp : pySplitComma s with _ | ⟨a, _ | ⟨b, _ | ⟨c, t⟩⟩⟩
      · rfl
      · rfl
      · exact absurd (by rw [hsp]; rfl) hlen
      · rfl
    have hline : processLine st s = .error "ValueError: unpacking" := by
      rw [processLine_data_eq st s htrim hne hss hss2, hidle]
      simp only [nsetStep_none hn, elsetStep_none he, hsurf]
    refine ⟨hline, ?_⟩
    intro pre rest st0 hpre
    rw [runLines_append, hpre]
    simp only [runLines, hline]

/-- Witness for C5: with surface `FACEK1A` active, `"3, S2"` appends the
pair `(3, " S2")`; the 3-token line `"3, S2, S3"` is the fatal unpacking
error and the whole run of `["3, S2, S3"]` from that state fails. -/
theorem c5_surface_data_lines_witness :
    processLine { initState with current_surf_name := some "FACEK1A" } "3, S2" =
      .ok { initState with
            current_surf_name := some "FACEK1A"
            surfaces := appendAt initState.surfaces "FACEK1A" (3, " S2") } ∧
    processLine { initState with current_surf_name := some "FACEK1A" } "3, S2, S3" =
      .error "ValueError: unpacking" ∧
    runLines { initState with current_surf_name := some "FACEK1A" }
      ([] ++ "3, S2, S3" :: ["*node"]) = .error "ValueError: unpacking" := by
  have h1 := (c5_surface_data_lines
      { initState with current_surf_name := some "FACEK1A" } "3, S2" "FACEK1A"
      rfl rfl rfl rfl rfl rfl rfl rfl rfl).1 "3" " S2" 3 (by decide) (by decide)
  have h2 := (c5_surface_data_lines
      { initState with current_surf_name := some "FACEK1A" } "3, S2, S3" "FACEK1A"
      rfl rfl rfl rfl rfl rfl rfl rfl rfl).2 (by decide)
  exact ⟨h1, h2.1, h2.2 [] ["*node"] _ rfl⟩

/-- C9: a `*node` (or `*element`) directive does not deactivate an active
named set — it only sets the section flags — so with a node set active and
the Nodes section open, a data line is recorded as a node AND tokenized as
integer set members appended to the still-active set (symmetrically for
element sets and the Elements section); consequently a node line whose
coordinate token `0.5` is not a valid integer makes the whole parse fail
with the fatal numeric `ValueError` instead of returning a model with the
node. -/
theorem c9_section_set_coupling :
    (∀ (st : ParseState) (s : String),
      pyStrip s = s → s.data.isEmpty = false →
      pyStartsWith s "*" = true → pyStartsWith s "**" = false →
      pyStartsWith (pyLower s) "*node" = true →
      processLine st s =
        .ok { st with reading_nodes := true, reading_elements := false }) ∧
    (∀ (st : ParseState) (s : String),
      pyStrip s = s → s.data.isEmpty = false →
      pyStartsWith s "*" = true → pyStartsWith s "**" = false →
      pyStartsWith (pyLower s) "*node" = false →
      pyStartsWith (pyLower s) "*element" = true →
      processLine st s =
        .ok { st with reading_nodes := false, reading_elements := true }) ∧
    (∀ (st : ParseState) (s nm : String) (nid : Int) (x y z : Rat)
        (ids : List Int),
      pyStrip s = s → s.data.isEmpty = false →
      pyStartsWith s "*" = false → pyStartsWith s "**" = false →
      st.reading_nodes = true → st.current_nset_name = some nm →
      st.current_elset_name = none → st.current_surf_name = none →
      (pySplitComma s).length ≥ 4 →
      pyInt ((pySplitComma s).getD 0 "") = some nid →
      pyFloat ((pySplitComma s).getD 1 "") = some x →
      pyFloat ((pySplitComma s).getD 2 "") = some y →
      pyFloat ((pySplitComma s).getD 3 "") = some z →
      (setTokens s).mapM pyInt = some ids →
      processLine st s =
        .ok { st with
              nodes := iupsert st.nodes nid (x, y, z)
              nsets := extendAt st.nsets nm ids }) ∧
    (∀ (st : ParseState) (s nm : String) (eid : Int) (conn ids : List Int),
      pyStrip s = s → s.data.isEmpty = false →
      pyStartsWith s "*" = false → pyStartsWith s "**" = false →
      st.reading_nodes = false → st.reading_elements = true →
      st.current_nset_name = none → st.current_elset_name = some nm →
      st.current_surf_name = none →
      (pySplitComma s).length ≥ 9 →
      pyInt ((pySplitComma s).getD 0 "") = some eid →
      (((pySplitComma s).drop 1).take 8).mapM pyInt = some conn →
      (setTokens s).mapM pyInt = some ids →
      processLine st s =
        .ok { st with
              elements := iupsert st.elements eid conn
              elsets := extendAt st.elsets nm ids }) ∧
    parse_inp ["*nset, nset=a", "*node", "1, 0.5, 0.0, 0.0"] =
      .error "ValueError" := by
  refine ⟨?_, ?_, ?_, ?_, by rfl⟩
  · intro st s htrim hne hss hss2 hnode
    rw [processLine_directive_eq st s htrim hne hss hss2]
    simp only [processDirective]
    rw [if_pos hnode]
  · intro st s htrim hne hss hss2 hnodeF helemT
    rw [processLine_directive_eq st s htrim hne hss hss2]
    simp only [processDirective]
    rw [if_neg (by simp [hnodeF]), if_pos helemT]
  · intro st s nm nid x y z ids htrim hne hss hss2 hrn hn he hsu
      hlen hid hx hy hz hids
    have hstep : nodeEleStep st s =
        .ok { st with nodes := iupsert st.nodes nid (x, y, z) } := by
      simp only [nodeEleStep]
      rw [if_pos hrn, if_pos hlen, hid, hx, hy, hz]
    have hguard : (!s.data.isEmpty && !pyStartsWith s "*") = true := by
      simp [hne, hss]
    have h2 : nsetStep { st with nodes := iupsert st.nodes nid (x, y, z) } s =
        .ok { st with
              nodes := iupsert st.nodes nid (x, y, z)
              nsets := extendAt st.nsets nm ids } := by
      simp only [nsetStep, hn]
      rw [if_pos hguard, hids]
    have h3 : elsetStep
        { st with
          nodes := iupsert st.nodes nid (x, y, z)
          nsets := extendAt st.nsets nm ids } s =
        .ok { st with
              nodes := iupsert st.nodes nid (x, y, z)
              nsets := extendAt st.nsets nm ids } :=
      elsetStep_none (by simp [he])
    have h4 : surfStep
        { st with
          nodes := iupsert st.nodes nid (x, y, z)
          nsets := extendAt st.nsets nm ids } s =
        .ok { st with
              nodes := iupsert st.nodes nid (x, y, z)
              nsets := extendAt st.nsets nm ids } :=
      surfStep_none (by simp [hsu])
    rw [processLine_data_eq st s htrim hne hss hss2, hstep]
    simp only [h2, h3, h4]
  · intro st s nm eid conn ids htrim hne hss hss2 hrn hre hn he hsu
      hlen hid hconn hids
    have hstep : nodeEleStep st s =
        .ok { st with elements := iupsert st.elements eid conn } := by
      simp only [nodeEleStep]
      rw [if_neg (by simp [hrn]), if_pos hre, if_pos hlen, hid, hconn]
    have hguard : (!s.data.isEmpty && !pyStartsWith s "*") = true := by
      simp [hne, hss]
    have h2 : nsetStep { st with elements := iupsert st.elements eid conn } s =
        .ok { st with elements := iupsert st.elements eid conn } :=
      nsetStep_none (by simp [hn])
    have h3 : elsetStep { st with elements := iupsert st.elements eid conn } s =
        .ok { st with
              elements := iupsert st.elements eid conn
              elsets := extendAt st.elsets nm ids } := by
      simp only [elsetStep, he]
      rw [if_pos hguard, hids]
    have h4 : surfStep
        { st with
          elements := iupsert st.elements eid conn
          elsets := extendAt st.elsets nm ids } s =
        .ok { st with
              elements := iupsert st.elements eid conn
              elsets := extendAt st.elsets nm ids } :=
      surfStep_none (by simp [hsu])
    rw [processLine_data_eq st s htrim hne hss hss2, hstep]
    simp only [h2, h3, h4]

/-- Witness for C9: the `*node` directive fired from a state with node set
`A` active keeps `A` active, and the following data line `"1, 2, 3, 4"` is
recorded both as node 1 at `(2, 3, 4)` and as members `[1,2,3,4]` of `A`. -/
theorem c9_section_set_coupling_witness :
    processLine { initState with current_nset_name := some "A" } "*node" =
      .ok { initState with
            current_nset_name := some "A"
            reading_nodes := true
            reading_elements := false } ∧
    processLine
        { initState with current_nset_name := some "A", reading_nodes := true }
        "1, 2, 3, 4" =
      .ok { initState with
            current_nset_name := some "A"
            reading_nodes := true
            nodes := iupsert initState.nodes 1 (mkRat 2 1, mkRat 3 1, mkRat 4 1)
            nsets := extendAt initState.nsets "A" [1, 2, 3, 4] } :=
  ⟨c9_section_set_coupling.1 { initState with current_nset_name := some "A" }
      "*node" rfl rfl rfl rfl rfl,
   c9_section_set_coupling.2.2.1
      { initState with current_nset_name := some "A", reading_nodes := true }
      "1, 2, 3, 4" "A" 1 (mkRat 2 1) (mkRat 3 1) (mkRat 4 1) [1, 2, 3, 4]
      rfl rfl rfl rfl rfl rfl rfl rfl (by decide) (by decide) (by decide)
      (by decide) (by decide) (by decide)⟩

/-- C10: a `*surface` directive from which no `name=` attribute can be
extracted leaves the previously active surface pointer (and both set
pointers) unchanged — subsequent data lines still append to the previously
opened surface — whereas a `*nset` (resp. `*elset`) directive without an
extractable name sets the corresponding pointer to `None`.  The closed
conjunct shows the data line `"3, S2"` after a name-less `*surface`
directive still landing in the previously opened surface `FACEK1A`. -/
theorem c10_directive_name_extraction :
    (∀ (st : ParseState) (s : String),
      pyStrip s = s → s.data.isEmpty = false →
      pyStartsWith s "*" = true → pyStartsWith s "**" = false →
      pyStartsWith (pyLower s) "*node" = false →
      pyStartsWith (pyLower s) "*element" = false →
      pyStartsWith (pyLower s) "*nset" = false →
      pyStartsWith (pyLower s) "*elset" = false →
      pyStartsWith (pyLower s) "*surface" = true →
      extractAttr (pyLower s) "name=" = none →
      processLine st s =
        .ok { st with reading_nodes := false, reading_elements := false }) ∧
    (∀ (st : ParseState) (s : String),
      pyStrip s = s → s.data.isEmpty = false →
      pyStartsWith s "*" = true → pyStartsWith s "**" = false →
      pyStartsWith (pyLower s) "*node" = false →
      pyStartsWith (pyLower s) "*element" = false →
      pyStartsWith (pyLower s) "*nset" = true →
      extractAttr (pyLower s) "nset=" = none →
      processLine st s =
        .ok { st with
              reading_nodes := false
              reading_elements := false
              current_nset_name := none }) ∧
    (∀ (st : ParseState) (s : String),
      pyStrip s = s → s.data.isEmpty = false →
      pyStartsWith s "*" = true → pyStartsWith s "**" = false →
      pyStartsWith (pyLower s) "*node" = false →
      pyStartsWith (pyLower s) "*element" = false →
      pyStartsWith (pyLower s) "*nset" = false →
      pyStartsWith (pyLower s) "*elset" = true →
      extractAttr (pyLower s) "elset=" = none →
      processLine st s =
        .ok { st with
              reading_nodes := false
              reading_elements := false
              current_elset_name := none }) ∧
    parse_inp ["*surface, name=FACEK1A", "*surface, type=element", "3, S2"] =
      .ok ⟨[], [], [], [], [("FACEK1A", [(3, " S2")])],
           false, false, none, none, some "FACEK1A"⟩ := by
  refine ⟨?_, ?_, ?_, by rfl⟩
  · intro st s htrim hne hss hss2 h1 h2 h3 h4 h5 hext
    rw [processLine_directive_eq st s htrim hne hss hss2]
    simp only [processDirective]
    rw [if_neg (by simp [h1]), if_neg (by simp [h2]), if_neg (by simp [h3]),
      if_neg (by simp [h4]), if_pos h5, hext]
  · intro st s htrim hne hss hss2 h1 h2 h3 hext
    rw [processLine_directive_eq st s htrim hne hss hss2]
    simp only [processDirective]
    rw [if_neg (by simp [h1]), if_neg (by simp [h2]), if_pos h3, hext]
  · intro st s htrim hne hss hss2 h1 h2 h3 h4 hext
    rw [processLine_directive_eq st s htrim hne hss hss2]
    simp only [processDirective]
    rw [if_neg (by simp [h1]), if_neg (by simp [h2]), if_neg (by simp [h3]),
      if_pos h4, hext]

/-- Witness for C10: a `*surface` directive without `name=` fired from a
state with surface `OUTERS` active leaves it active; a `*nset` directive
without `nset=` deactivates the node-set pointer. -/
theorem c10_directive_name_extraction_witness :
    processLine { initState with current_surf_name := some "OUTERS" }
        "*surface, type=element" =
      .ok { initState with
            current_surf_name := some "OUTERS"
            reading_nodes := false
            reading_elements := false } ∧
    processLine { initState with current_nset_name := some "K1A" }
        "*nset, generate" =
      .ok { initState with
            current_nset_name := none
            reading_nodes := false
            reading_elements := false } :=
  ⟨c10_directive_name_extraction.1
      { initState with current_surf_name := some "OUTERS" }
      "*surface, type=element" rfl rfl rfl rfl rfl rfl rfl rfl rfl (by rfl),
   c10_directive_name_extraction.2.1
      { initState with current_nset_name := some "K1A" }
      "*nset, generate" rfl rfl rfl rfl rfl rfl rfl (by rfl)⟩

/-- At most one of the three "current named collection" pointers is set
(two of them are always `none`). -/
def atMostOnePointer (st : ParseState) : Prop :=
  (st.current_nset_name = none ∧ st.current_elset_name = none) ∨
  (st.current_nset_name = none ∧ st.current_surf_name = none) ∨
  (st.current_elset_name = none ∧ st.current_surf_name = none)

theorem nodeEleStep_pointers {st st' : ParseState} {s : String}
    (h : nodeEleStep st s = .ok st') :
    st'.current_nset_name = st.current_nset_name ∧
    st'.current_elset_name = st.current_elset_name ∧
    st'.current_surf_name = st.current_surf_name := by
  simp only [nodeEleStep] at h
  repeat' split at h
  all_goals first
    | (injection h with h2; subst h2; simp)
    | simp at h

theorem nsetStep_pointers {st st' : ParseState} {s : String}
    (h : nsetStep st s = .ok st') :
    st'.current_nset_name = st.current_nset_name ∧
    st'.current_elset_name = st.current_elset_name ∧
    st'.current_surf_name = st.current_surf_name := by
  simp only [nsetStep] at h
  repeat' split at h
  all_goals first
    | (injection h with h2; subst h2; simp)
    | simp at h

theorem elsetStep_pointers {st st' : ParseState} {s : String}
    (h : elsetStep st s = .ok st') :
    st'.current_nset_name = st.current_nset_name ∧
    st'.current_elset_name = st.current_elset_name ∧
    st'.current_surf_name = st.current_surf_name := by
  simp only [elsetStep] at h
  repeat' split at h
  all_goals first
    | (injection h with h2; subst h2; simp)
    | simp at h

theorem surfStep_pointers {st st' : ParseState} {s : String}
    (h : surfStep st s = .ok st') :
    st'.current_nset_name = st.current_nset_name ∧
    st'.current_elset_name = st.current_elset_name ∧
    st'.current_surf_name = st.current_surf_name := by
  simp only [surfStep] at h
  repeat' split at h
  all_goals first
    | (injection h with h2; subst h2; simp)
    | simp at h

/-- Every directive preserves the invariant: a directive that activates a
pointer clears the other two, and the name-less fallbacks only clear. -/
theorem processDirective_amop (st : ParseState) (s : String)
    (h : atMostOnePointer st) : atMostOnePointer (processDirective st s) := by
  simp only [processDirective]
  repeat' split
  all_goals simp_all [atMostOnePointer]
  all_goals tauto

theorem processLine_amop {st st' : ParseState} {line : String}
    (hst : atMostOnePointer st) (h : processLine st line = .ok st') :
    atMostOnePointer st' := by
  simp only [processLine] at h
  split at h
  · injection h with h2; subst h2; exact hst
  · split at h
    · injection h with h2
      subst h2
      exact processDirective_amop st _ hst
    · cases h1 : nodeEleStep st (pyStrip line) with
      | error e => rw [h1] at h; simp at h
      | ok st1 =>
        rw [h1] at h
        simp only [] at h
        cases h2 : nsetStep st1 (pyStrip line) with
        | error e => rw [h2] at h; simp at h
        | ok st2 =>
          rw [h2] at h
          simp only [] at h
          cases h3 : elsetStep st2 (pyStrip line) with
          | error e => rw [h3] at h; simp at h
          | ok st3 =>
            rw [h3] at h
            simp only [] at h
            obtain ⟨a1, a2, a3⟩ := nodeEleStep_pointers h1
            obtain ⟨b1, b2, b3⟩ := nsetStep_pointers h2
            obtain ⟨c1, c2, c3⟩ := elsetStep_pointers h3
            obtain ⟨d1, d2, d3⟩ := surfStep_pointers h
            unfold atMostOnePointer at hst ⊢
            rw [d1, c1, b1, a1, d2, c2, b2, a2, d3, c3, b3, a3]
            exact hst

theorem runLines_amop :
    ∀ (lines : List String) (st st' : ParseState), atMostOnePointer st →
      runLines st lines = .ok st' → atMostOnePointer st' := by
  intro lines
  induction lines with
  | nil =>
    intro st st' hst h
    injection h with h2
    subst h2
    exact hst
  | cons a t ih =>
    intro st st' hst h
    simp only [runLines] at h
    cases hp : processLine st a with
    | error e => rw [hp] at h; simp at h
    | ok st1 =>
      rw [hp] at h
      exact ih st1 st' (processLine_amop hst hp) h

/-- C8: throughout parsing at most one named collection is active — after
processing any input prefix that parses without error, at most one of the
three pointers (current node-set, current element-set, current surface) is
set; the invariant holds initially and is preserved by every line, every
activating directive clearing the other two pointers. -/
theorem c8_at_most_one_active (lines : List String) (st' : ParseState)
    (h : parse_inp lines = .ok st') : atMostOnePointer st' :=
  runLines_amop lines initState st' (Or.inl ⟨rfl, rfl⟩) h

/-- Witness for C8: the state after `*nset` then `*surface` directives has
only the surface pointer set. -/
theorem c8_at_most_one_active_witness :
    atMostOnePointer
      ⟨[], [], [("A", [])], [], [("OUTERS", [])],
       false, false, none, none, some "OUTERS"⟩ :=
  c8_at_most_one_active ["*nset, nset=a", "*surface, name=outers"] _ (by rfl)

theorem emitSeq_ok_prefix (l1 l2 : List (List String × Option String))
    (h : ∀ b ∈ l1, b.2 = none) :
    emitSeq (l1 ++ l2) =
      ((l1.map Prod.fst).flatten ++ (emitSeq l2).1, (emitSeq l2).2) := by
  induction l1 with
  | nil => simp [emitSeq]
  | cons b t ih =>
    obtain ⟨ls, e⟩ := b
    have he : e = none := h (ls, e) (by simp)
    subst he
    simp only [List.cons_append, emitSeq, List.append_eq]
    rw [ih (fun x hx => h x (by simp [hx]))]
    simp [List.append_assoc]

/-- C1 counterexample: with the single node set `X` (absent from
`nodeset_ssid`), the writer DOES emit the block's comment line
`$ Node set: X` and its directive line before the KeyError aborts — the
abort is not before "any partial block" as claimed. -/
theorem c1_counterexample :
    alookup nodeset_ssid "X" = none ∧
    write_k { initState with nsets := [("X", [1])] } =
      (["*DUALCESE_NODE3D", "*DUALCESE_ELE3D",
        "$ Node set: X", "*DUALCESE_NODESET"],
       some "KeyError: nodeset_ssid X") ∧
    "$ Node set: X" ∈ (write_k { initState with nsets := [("X", [1])] }).1 ∧
    "*DUALCESE_NODESET" ∈ (write_k { initState with nsets := [("X", [1])] }).1 := by
  refine ⟨by rfl, by rfl, by decide, by decide⟩

/-- C1 amended: for the first set or surface name absent from its static
ID table, the writer aborts before the block's numeric-ID line and before
any member or segment line of that block — but after the block's comment
line and directive line, which are already in the output stream. -/
theorem c1_amended_abort_point :
    (∀ (m : ParseState) (pre : List (String × List Int)) (name : String)
        (members : List Int) (post : List (String × List Int)),
      m.nsets = pre ++ (name, members) :: post →
      (∀ p ∈ pre, (nsetBlock p).2 = none) →
      alookup nodeset_ssid name = none →
      write_k m =
        (nodeBlockLines m.nodes ++ eleBlockLines m.elements ++
          (pre.map (fun p => (nsetBlock p).1)).flatten ++
          ["$ Node set: " ++ name, "*DUALCESE_NODESET"],
         some ("KeyError: nodeset_ssid " ++ name))) ∧
    (∀ (m : ParseState) (pre : List (String × List (Int × String)))
        (name : String) (pairs : List (Int × String))
        (post : List (String × List (Int × String))),
      m.surfaces = pre ++ (name, pairs) :: post →
      (∀ p ∈ m.nsets, (nsetBlock p).2 = none) →
      (∀ p ∈ pre, (surfBlock m.elements p).2 = none) →
      alookup segmentset_ssid name = none →
      write_k m =
        (nodeBlockLines m.nodes ++ eleBlockLines m.elements ++
          (m.nsets.map (fun p => (nsetBlock p).1)).flatten ++
          (pre.map (fun p => (surfBlock m.elements p).1)).flatten ++
          ["$ Surface set: " ++ name, "*DUALCESE_SEGMENTSET"],
         some ("KeyError: segmentset_ssid " ++ name))) ∧
    (∀ (m : ParseState) (pre : List (String × List Int)) (name : String)
        (members : List Int) (post : List (String × List Int)),
      m.elsets = pre ++ (name, members) :: post →
      (∀ p ∈ m.nsets, (nsetBlock p).2 = none) →
      (∀ p ∈ m.surfaces, (surfBlock m.elements p).2 = none) →
      (∀ p ∈ pre, (elsetBlock p).2 = none) →
      alookup elementset_ssid name = none →
      write_k m =
        (nodeBlockLines m.nodes ++ eleBlockLines m.elements ++
          (m.nsets.map (fun p => (nsetBlock p).1)).flatten ++
          (m.surfaces.map (fun p => (surfBlock m.elements p).1)).flatten ++
          (pre.map (fun p => (elsetBlock p).1)).flatten ++
          ["$ Element set: " ++ name, "*DUALCESE_ELEMENTSET"],
         some ("KeyError: elementset_ssid " ++ name))) := by
  refine ⟨?_, ?_, ?_⟩
  · intro m pre name members post hsplit hpre hlook
    have hb : blockSeq m =
        ([(nodeBlockLines m.nodes, none), (eleBlockLines m.elements, none)] ++
          pre.map nsetBlock) ++
        (nsetBlock (name, members) ::
          (post.map nsetBlock ++ m.surfaces.map (surfBlock m.elements) ++
           m.elsets.map elsetBlock ++ [(["*END"], none)])) := by
      simp [blockSeq, hsplit, List.append_assoc]
    have hallok : ∀ b ∈ ([(nodeBlockLines m.nodes, (none : Option String)),
        (eleBlockLines m.elements, none)] ++ pre.map nsetBlock), b.2 = none := by
      intro b hbm
      rcases List.mem_append.mp hbm with hbm | hbm
      · rcases List.mem_cons.mp hbm with rfl | hbm
        · rfl
        · rcases List.mem_cons.mp hbm with rfl | hbm
          · rfl
          · simp at hbm
      · obtain ⟨p, hp, rfl⟩ := List.mem_map.mp hbm
        exact hpre p hp
    have hfail : nsetBlock (name, members) =
        (["$ Node set: " ++ name, "*DUALCESE_NODESET"],
         some ("KeyError: nodeset_ssid " ++ name)) := by
      simp [nsetBlock, hlook]
    rw [write_k, hb, emitSeq_ok_prefix _ _ hallok, hfail]
    simp [emitSeq, List.map_map, List.append_assoc, Function.comp_def]
  · intro m pre name pairs post hsplit hnsets hpre hlook
    have hb : blockSeq m =
        ([(nodeBlockLines m.nodes, none), (eleBlockLines m.elements, none)] ++
          m.nsets.map nsetBlock ++ pre.map (surfBlock m.elements)) ++
        (surfBlock m.elements (name, pairs) ::
          (post.map (surfBlock m.elements) ++ m.elsets.map elsetBlock ++
           [(["*END"], none)])) := by
      simp [blockSeq, hsplit, List.append_assoc]
    have hallok : ∀ b ∈ ([(nodeBlockLines m.nodes, (none : Option String)),
        (eleBlockLines m.elements, none)] ++ m.nsets.map nsetBlock ++
        pre.map (surfBlock m.elements)), b.2 = none := by
      intro b hbm
      rcases List.mem_append.mp hbm with hbm | hbm
      · rcases List.mem_append.mp hbm with hbm | hbm
        · rcases List.mem_cons.mp hbm with rfl | hbm
          · rfl
          · rcases List.mem_cons.mp hbm with rfl | hbm
            · rfl
            · simp at hbm
        · obtain ⟨p, hp, rfl⟩ := List.mem_map.mp hbm
          exact hnsets p hp
      · obtain ⟨p, hp, rfl⟩ := List.mem_map.mp hbm
        exact hpre p hp
    have hfail : surfBlock m.elements (name, pairs) =
        (["$ Surface set: " ++ name, "*DUALCESE_SEGMENTSET"],
         some ("KeyError: segmentset_ssid " ++ name)) := by
      simp [surfBlock, hlook]
    rw [write_k, hb, emitSeq_ok_prefix _ _ hallok, hfail]
    simp [emitSeq, List.map_map, List.append_assoc, Function.comp_def]
  · intro m pre name members post hsplit hnsets hsurfs hpre hlook
    have hb : blockSeq m =
        ([(nodeBlockLines m.nodes, none), (eleBlockLines m.elements, none)] ++
          m.nsets.map nsetBlock ++ m.surfaces.map (surfBlock m.elements) ++
          pre.map elsetBlock) ++
        (elsetBlock (name, members) ::
          (post.map elsetBlock ++ [(["*END"], none)])) := by
      simp [blockSeq, hsplit, List.append_assoc]
    have hallok : ∀ b ∈ ([(nodeBlockLines m.nodes, (none : Option String)),
        (eleBlockLines m.elements, none)] ++ m.nsets.map nsetBlock ++
        m.surfaces.map (surfBlock m.elements) ++ pre.map elsetBlock),
        b.2 = none := by
      intro b hbm
      rcases List.mem_append.mp hbm with hbm | hbm
      · rcases List.mem_append.mp hbm with hbm | hbm
        · rcases List.mem_append.mp hbm with hbm | hbm
          · rcases List.mem_cons.mp hbm with rfl | hbm
            · rfl
            · rcases List.mem_cons.mp hbm with rfl | hbm
              · rfl
              · simp at hbm
          · obtain ⟨p, hp, rfl⟩ := List.mem_map.mp hbm
            exact hnsets p hp
        · obtain ⟨p, hp, rfl⟩ := List.mem_map.mp hbm
          exact hsurfs p hp
      · obtain ⟨p, hp, rfl⟩ := List.mem_map.mp hbm
        exact hpre p hp
    have hfail : elsetBlock (name, members) =
        (["$ Element set: " ++ name, "*DUALCESE_ELEMENTSET"],
         some ("KeyError: elementset_ssid " ++ name)) := by
      simp [elsetBlock, hlook]
    rw [write_k, hb, emitSeq_ok_prefix _ _ hallok, hfail]
    simp [emitSeq, List.map_map, List.append_assoc, Function.comp_def]

/-- Witness for C1's amended claim: node sets `K1A` (known ID 999) then
`X` (unknown): the output ends with `X`'s comment and directive lines,
`K1A`'s block fully emitted before them, and the KeyError is raised. -/
theorem c1_amended_abort_point_witness :
    write_k { initState with nsets := [("K1A", [1]), ("X", [2])] } =
      (nodeBlockLines ({ initState with
          nsets := [("K1A", [1]), ("X", [2])] } : ParseState).nodes ++
        eleBlockLines ({ initState with
          nsets := [("K1A", [1]), ("X", [2])] } : ParseState).elements ++
        ([("K1A", ([1] : List Int))].map (fun p => (nsetBlock p).1)).flatten ++
        ["$ Node set: " ++ "X", "*DUALCESE_NODESET"],
       some ("KeyError: nodeset_ssid " ++ "X")) :=
  c1_amended_abort_point.1 { initState with nsets := [("K1A", [1]), ("X", [2])] }
    [("K1A", [1])] "X" [2] [] rfl (by decide) rfl

end LSDynaConvert
